import Mathlib

/-!
Verification development for the pitchgrid-mapper MIDI retuning bridge.

The definitions below are shallow embeddings of the Python sources:
  - src/pg_isomap/midi_handler.py   (hot-path remapping, note lifecycle, ACK driver, parser)
  - src/pg_isomap/controller_config.py (reverse-table builder, ACK response position)
  - src/pg_isomap/app.py            (coordinator: reverse-mapping install, disconnect)
  - src/pg_isomap/tuning.py         (tuning parameter coercion)

Python dicts are modelled as association lists with unique keys: insertion of an
existing key updates it in place (keeping its position, as CPython does), a new
key is appended; lookup scans for the key.
-/

/-- Association-list lookup, modelling Python dict indexing. -/
def alookup {α β : Type} [DecidableEq α] : List (α × β) → α → Option β
  | [], _ => none
  | (k, v) :: rest, a => if k = a then some v else alookup rest a

/-- Python dict insertion: an existing key is updated in place, a new key is
appended at the end. -/
def dinsert {α β : Type} [DecidableEq α] (k : α) (v : β) : List (α × β) → List (α × β)
  | [] => [(k, v)]
  | (k', v') :: rest => if k' = k then (k, v) :: rest else (k', v') :: dinsert k v rest

/-- Python dict.pop with a default: removes the entry of a key if present. -/
def dremove {α β : Type} [DecidableEq α] (k : α) : List (α × β) → List (α × β)
  | [] => []
  | (k', v') :: rest => if k' = k then rest else (k', v') :: dremove k rest

/-- The mutable state of MIDIHandler (midi_handler.py) that the remap engine
touches: the forward table note_mapping, the reverse table reverse_mapping,
the channel-lookup flag, and the playing-notes registry. midiOutOpen models
whether the virtual output port self.midi_out is initialized;
controllerConnected models whether the controller input port is open. -/
structure MidiState where
  midiOutOpen : Bool
  controllerConnected : Bool
  reverse_mapping : List ((Nat × Nat) × (Int × Int))
  note_mapping : List ((Int × Int) × Nat)
  use_channel_for_lookup : Bool
  playing_notes : List (Nat × ((Int × Int) × Nat))
deriving DecidableEq

/-- One iteration of MIDIHandler._processing_loop (midi_handler.py lines
334-411) on a dequeued message: returns the list of messages sent on the
virtual output and the updated state. Mirrors the source: when the virtual
output is missing the message is skipped; a message of length at least 3
whose status nibble is NOTE_ON 0x90 or NOTE_OFF 0x80 is looked up in
reverse_mapping under (channel if use_channel_for_lookup else 0, note) and
then in note_mapping, and is dropped on either miss; on a double hit the
message [status, mapped_note, velocity] is sent and playing_notes is updated
(insert on a Note-On with positive velocity, pop otherwise); every other
message is forwarded unchanged. -/
def process_message (st : MidiState) (message : List Nat) : List (List Nat) × MidiState :=
  if st.midiOutOpen = false then ([], st)
  else
    let status := match message with
      | [] => 0
      | b :: _ => b &&& 0xF0
    if 3 ≤ message.length ∧ (status = 0x90 ∨ status = 0x80) then
      let b0 := message.headD 0
      let channel := b0 &&& 0x0F
      let controller_note := message.getD 1 0
      let velocity := message.getD 2 0
      let lookup_channel := if st.use_channel_for_lookup then channel else 0
      match alookup st.reverse_mapping (lookup_channel, controller_note) with
      | none => ([], st)
      | some logical_coord =>
        match alookup st.note_mapping logical_coord with
        | none => ([], st)
        | some mapped_note =>
          let playing :=
            if status = 0x90 ∧ 0 < velocity then
              dinsert mapped_note (logical_coord, channel) st.playing_notes
            else
              dremove mapped_note st.playing_notes
          ([[b0, mapped_note, velocity]], { st with playing_notes := playing })
    else
      ([message], st)

/-- The partition performed by MIDIHandler.stop_notes_with_changed_mapping
(midi_handler.py lines 534-547): each playing entry whose coordinate no
longer maps, or maps to a different note, under the new mapping goes to the
stop list; the rest are kept in order. -/
def split_changed (new_mapping : List ((Int × Int) × Nat)) :
    List (Nat × ((Int × Int) × Nat)) →
    List (Nat × ((Int × Int) × Nat)) × List (Nat × ((Int × Int) × Nat))
  | [] => ([], [])
  | (old_note, (coord, ch)) :: rest =>
    let sk := split_changed new_mapping rest
    match alookup new_mapping coord with
    | none => ((old_note, (coord, ch)) :: sk.1, sk.2)
    | some new_note =>
      if new_note ≠ old_note then ((old_note, (coord, ch)) :: sk.1, sk.2)
      else (sk.1, (old_note, (coord, ch)) :: sk.2)

/-- MIDIHandler.stop_notes_with_changed_mapping (midi_handler.py lines
520-557): with the virtual output open, emits [NOTE_OFF ||| channel, note, 0]
for every playing entry whose mapping changed under the new mapping, and
keeps exactly the preserved entries in playing_notes. -/
def stop_notes_with_changed_mapping (st : MidiState)
    (new_mapping : List ((Int × Int) × Nat)) : List (List Nat) × MidiState :=
  if st.midiOutOpen = false then ([], st)
  else
    let sk := split_changed new_mapping st.playing_notes
    (sk.1.map (fun e => [0x80 ||| e.2.2, e.1, 0]), { st with playing_notes := sk.2 })

/-- MIDIHandler.stop_all_playing_notes (midi_handler.py lines 495-518): with
the virtual output open, emits a Note-Off on the recorded channel for every
playing entry and clears the registry. -/
def stop_all_playing_notes (st : MidiState) : List (List Nat) × MidiState :=
  if st.midiOutOpen = false then ([], st)
  else
    (st.playing_notes.map (fun e => [0x80 ||| e.2.2, e.1, 0]),
     { st with playing_notes := [] })

/-- PGIsomapApp.disconnect_controller (app.py lines 175-179) via
MIDIHandler.disconnect_controller (midi_handler.py lines 226-245): the
controller input and output ports are closed. Nothing is sent on the virtual
output and playing_notes is not touched by either function. -/
def disconnect_controller (st : MidiState) : List (List Nat) × MidiState :=
  ([], { st with controllerConnected := false })

/-- ControllerConfig.build_controller_note_mapping (controller_config.py lines
375-391), parameterized by the descriptor data it reads: the pad list and
the note/channel assignment functions (logical_coord_to_controller_note may
fail, logical_coord_to_controller_channel defaults to 0 and always yields a
value). Each pad whose assigned note lies in 0..127 is inserted under the
key (channel, note). -/
def build_controller_note_mapping (pads : List (Int × Int))
    (noteAssign : Int → Int → Option Int) (channelAssign : Int → Int → Int) :
    List ((Int × Int) × (Int × Int)) :=
  pads.foldl (fun acc p =>
    match noteAssign p.1 p.2 with
    | none => acc
    | some note =>
      if 0 ≤ note ∧ note ≤ 127 then dinsert (channelAssign p.1 p.2, note) p acc
      else acc) []

/-- A Python dict key as used around app.py: the coordinator inserts plain int
keys while the hot path looks dicts up with (channel, note) tuple keys. Both
live in the same dict, distinguished only by runtime equality. -/
inductive PyKey where
  | int : Int → PyKey
  | pair : Int → Int → PyKey
deriving DecidableEq

/-- PGIsomapApp._logical_to_controller_note (app.py lines 282-301): the
hardcoded row-major fallback note = x + y * 16, rejected outside 0..127. -/
def logical_to_controller_note (x y : Int) : Option Int :=
  let note := x + y * 16
  if 0 ≤ note ∧ note ≤ 127 then some note else none

/-- The reverse mapping that PGIsomapApp._recalculate_layout (app.py lines
260-271) actually builds and installs into the MIDI handler: keyed by the
bare int note from the fallback, never by a (channel, note) pair, and never
consulting the descriptor note/channel assignment expressions. -/
def app_reverse_mapping (coords : List (Int × Int)) : List (PyKey × (Int × Int)) :=
  coords.foldl (fun acc p =>
    match logical_to_controller_note p.1 p.2 with
    | none => acc
    | some note => dinsert (PyKey.int note) p acc) []

/-- The scan of one SysEx body in MIDIHandler._parse_midi_messages
(midi_handler.py lines 838-846): bytes up to and including the first 0xF7
belong to the message; if no 0xF7 occurs, the whole remainder does. Returns
(message tail after the 0xF0, remaining input). -/
def sysexTake : List Nat → List Nat × List Nat
  | [] => ([], [])
  | b :: rest =>
    if b = 0xF7 then ([0xF7], rest)
    else
      let pr := sysexTake rest
      (b :: pr.1, pr.2)

/-- MIDIHandler._parse_midi_messages (midi_handler.py lines 816-882) with an
explicit fuel argument standing for the loop bound; every iteration of the
Python while loop consumes at least one byte, so fuel = data.length suffices.
Branches mirror the source: SysEx up to 0xF7; channel messages 0x80-0xEF of
length 2 (Program Change 0xC0, Channel Pressure 0xD0) or 3; system common
0xF1-0xF6 of length 2, 3 or 1; real-time 0xF8 and above of length 1; any
other byte is skipped. -/
def parseMidiAux : Nat → List Nat → List (List Nat)
  | _, [] => []
  | 0, _ :: _ => []
  | fuel + 1, status :: rest =>
    if status = 0xF0 then
      let pr := sysexTake rest
      (status :: pr.1) :: parseMidiAux fuel pr.2
    else if 0x80 ≤ status ∧ status ≤ 0xEF then
      let n := if status &&& 0xF0 = 0xC0 ∨ status &&& 0xF0 = 0xD0 then 2 else 3
      ((status :: rest).take n) :: parseMidiAux fuel ((status :: rest).drop n)
    else if 0xF1 ≤ status ∧ status ≤ 0xF6 then
      let n := if status = 0xF1 ∨ status = 0xF3 then 2
               else if status = 0xF2 then 3 else 1
      ((status :: rest).take n) :: parseMidiAux fuel ((status :: rest).drop n)
    else if 0xF8 ≤ status then
      [status] :: parseMidiAux fuel rest
    else
      parseMidiAux fuel rest

/-- MIDIHandler._parse_midi_messages on a byte list. -/
def parse_midi_messages (data : List Nat) : List (List Nat) :=
  parseMidiAux data.length data

/-- A complete MIDI message in the sense of claim C6: a SysEx 0xF0 body 0xF7
with data-byte interior, a channel message of the exact expected length with
data bytes, a system-common message of its exact length, or a one-byte
real-time message. -/
def validMidiMessage : List Nat → Bool
  | [] => false
  | status :: rest =>
    if status = 0xF0 then
      !rest.isEmpty && rest.getLastD 0 == 0xF7 && rest.dropLast.all (fun b => b < 0x80)
    else if 0x80 ≤ status ∧ status ≤ 0xEF then
      (rest.length == if status &&& 0xF0 = 0xC0 ∨ status &&& 0xF0 = 0xD0 then 1 else 2)
        && rest.all (fun b => b < 0x80)
    else if status = 0xF1 ∨ status = 0xF3 then
      rest.length == 1 && rest.all (fun b => b < 0x80)
    else if status = 0xF2 then
      rest.length == 2 && rest.all (fun b => b < 0x80)
    else if status = 0xF4 ∨ status = 0xF5 ∨ status = 0xF6 then
      rest.isEmpty
    else if 0xF8 ≤ status ∧ status ≤ 0xFF then
      rest.isEmpty
    else
      false

/-- ACKResponseType (controller_config.py lines 68-73). -/
structure ACKResponseType where
  name : String
  value : Nat
  action : String
deriving DecidableEq

/-- ACKMessagingConfig (controller_config.py lines 76-88). -/
structure ACKMessagingConfig where
  timeout_ms : Nat
  response_position : Nat
  response_types : List ACKResponseType
deriving DecidableEq

/-- ACKMessagingConfig.get_action_for_value (controller_config.py lines
83-88): the action of the first response type with the given value. -/
def getActionForValue (cfg : ACKMessagingConfig) (value : Nat) : Option String :=
  match cfg.response_types.find? (fun rt => rt.value == value) with
  | none => none
  | some rt => some rt.action

/-- Whether the first list of characters is a prefix of the second. -/
def charsPrefix : List Char → List Char → Bool
  | [], _ => true
  | _ :: _, [] => false
  | p :: ps, c :: cs => p == c && charsPrefix ps cs

/-- String.startswith of Python (String.startsWith of Lean) on the character
lists of the two strings. -/
def strStartsWith (s pre : String) : Bool :=
  charsPrefix pre.toList s.toList

/-- String.endswith of Python (String.endsWith of Lean) on the character
lists of the two strings. -/
def strEndsWith (s suf : String) : Bool :=
  charsPrefix suf.toList.reverse s.toList.reverse

/-- The delay parser in MIDIHandler._send_single_with_ack (midi_handler.py
lines 718-729): an action string matching the pattern delay(digits) at its
start yields the digits as milliseconds, anything else fails. -/
def parseDelayMs (action : String) : Option Nat :=
  if strStartsWith action "delay(" then
    let rest := action.toList.drop 6
    let digits := rest.takeWhile Char.isDigit
    let after := rest.drop digits.length
    if digits.isEmpty then none
    else if after.headD ' ' = ')' then
      some (digits.foldl (fun acc c => acc * 10 + (c.toNat - 48)) 0)
    else none
  else none

/-- The outcome of MIDIHandler._send_single_with_ack: success flag and
outcome tag as in the source, plus the trace of transmissions of the message
and of the sleeps performed (in milliseconds). -/
structure SingleResult where
  success : Bool
  outcome : String
  sends : List (List Nat)
  sleeps : List Nat
deriving DecidableEq

/-- The retry loop of MIDIHandler._send_single_with_ack (midi_handler.py
lines 656-747), with fuel = max_retries - retries (the loop runs while
retries < max_retries = 10). resp gives the ACK response received for a
given attempt number, none meaning a timeout of the wait. Each iteration
transmits the message once; a response shorter than the status position or
an unknown value or action fails with outcome error; next succeeds, abort
fails with nack, delay(ms) sleeps ms and retries the same message. -/
def send_single_aux (cfg : ACKMessagingConfig) (resp : Nat → Option (List Nat))
    (msg : List Nat) : Nat → Nat → List (List Nat) → List Nat → SingleResult
  | 0, _, sends, sleeps => ⟨false, "busy", sends, sleeps⟩
  | fuel + 1, attempt, sends, sleeps =>
    let sends := sends ++ [msg]
    match resp attempt with
    | none => ⟨false, "timeout", sends, sleeps⟩
    | some response =>
      if cfg.response_position < response.length then
        let value := response.getD cfg.response_position 0
        match getActionForValue cfg value with
        | none => ⟨false, "error", sends, sleeps⟩
        | some action =>
          if action = "next" then ⟨true, "ack", sends, sleeps⟩
          else if action = "abort" then ⟨false, "nack", sends, sleeps⟩
          else if strStartsWith action "delay(" then
            match parseDelayMs action with
            | some d => send_single_aux cfg resp msg fuel (attempt + 1) sends (sleeps ++ [d])
            | none => ⟨false, "error", sends, sleeps⟩
          else ⟨false, "error", sends, sleeps⟩
      else ⟨false, "error", sends, sleeps⟩

/-- MIDIHandler._send_single_with_ack with max_retries = 10 (midi_handler.py
line 656). -/
def send_single_with_ack (cfg : ACKMessagingConfig) (resp : Nat → Option (List Nat))
    (msg : List Nat) : SingleResult :=
  send_single_aux cfg resp msg 10 0 [] []

/-- Whether a generation-tagged send observes cancellation (midi_handler.py
lines 609-613 and 801-805): the generation argument, when given, is compared
against the current value of the color-send generation counter; observed is
the value read under the lock at this check. -/
def cancelledAt (observed : Nat) (generation : Option Nat) : Bool :=
  match generation with
  | none => false
  | some g => observed != g

/-- The result of MIDIHandler.send_with_ack: the overall success flag, the
messages transmitted to the controller in order, and the number of reads of
the generation counter performed (the counter is a live shared value, so a
later pass continues the observation sequence at this index). -/
structure AckSendResult where
  ok : Bool
  sent : List (List Nat)
  reads : Nat
deriving DecidableEq

/-- The message loop of MIDIHandler.send_with_ack (midi_handler.py lines
607-631): before each message the live generation counter is read once (obs
gives the successive values read, indexed by read count) and a mismatch
aborts with False; a message that is non-empty and starts with 0xF0 goes
through the single-message ACK exchange (resp i giving the responses for
the attempts of message i) and a failure there aborts with False; other
messages are sent without waiting. -/
def send_with_ack_aux (obs : Nat → Nat) (generation : Option Nat)
    (cfg : ACKMessagingConfig) (resp : Nat → Nat → Option (List Nat)) :
    List (List Nat) → Nat → List (List Nat) → AckSendResult
  | [], i, sent => ⟨true, sent, i⟩
  | msg :: rest, i, sent =>
    if cancelledAt (obs i) generation then ⟨false, sent, i + 1⟩
    else if msg ≠ [] ∧ msg.headD 0 = 0xF0 then
      let r := send_single_with_ack cfg (resp i) msg
      if r.success then send_with_ack_aux obs generation cfg resp rest (i + 1) (sent ++ r.sends)
      else ⟨false, sent ++ r.sends, i + 1⟩
    else send_with_ack_aux obs generation cfg resp rest (i + 1) (sent ++ [msg])

/-- MIDIHandler.send_with_ack (midi_handler.py lines 570-635) on an already
parsed message list, starting at read index 0 of the generation counter. -/
def send_with_ack (obs : Nat → Nat) (generation : Option Nat)
    (cfg : ACKMessagingConfig) (resp : Nat → Nat → Option (List Nat))
    (messages : List (List Nat)) : AckSendResult :=
  send_with_ack_aux obs generation cfg resp messages 0 []

/-- The delay-based message loop of MIDIHandler.send_raw_bytes
(midi_handler.py lines 798-810): before each message the live generation
counter is read once (i is the index of that read in the observation
sequence obs) and a mismatch returns silently; otherwise the message is
sent. -/
def send_delay_based (obs : Nat → Nat) (generation : Option Nat) :
    List (List Nat) → Nat → List (List Nat) → List (List Nat)
  | [], _, sent => sent
  | msg :: rest, i, sent =>
    if cancelledAt (obs i) generation then sent
    else send_delay_based obs generation rest (i + 1) (sent ++ [msg])

/-- The result of MIDIHandler.send_raw_bytes: messages transmitted, and
whether the user-visible fallback warning (ACK-based send FAILED) was
logged. -/
structure RawSendResult where
  sent : List (List Nat)
  warned : Bool
deriving DecidableEq

/-- MIDIHandler.send_raw_bytes (midi_handler.py lines 749-814) on an already
parsed message list: with an ack_config it first runs the ACK-based send;
on False (which cancellation also returns) it logs the fallback warning and
re-sends the whole stream with the delay-based loop. The generation counter
is one live value, so the fallback pass re-reads it where the ACK pass left
off: its checks continue the observation sequence at the read index the ACK
pass reports. -/
def send_raw_bytes (obs : Nat → Nat) (generation : Option Nat)
    (ack_config : Option ACKMessagingConfig) (resp : Nat → Nat → Option (List Nat))
    (messages : List (List Nat)) : RawSendResult :=
  match ack_config with
  | none => ⟨send_delay_based obs generation messages 0 [], false⟩
  | some cfg =>
    let r := send_with_ack obs generation cfg resp messages
    if r.ok then ⟨r.sent, false⟩
    else ⟨r.sent ++ send_delay_based obs generation messages r.reads [], true⟩

/-- The per-token byte width used by find_midi_response_type_position
(controller_config.py lines 43-63): expressions in braces, collapsed
function calls, numeric literals and ordinary named constants count 1 byte;
MANUFACTURER_CODE counts 3. -/
def tokenByteCount (t : String) : Nat :=
  if strStartsWith t "\x7b" && strEndsWith t "\x7d" then 1
  else if t = "FUNC_CALL" then 1
  else if (!t.toList.isEmpty && t.toList.all Char.isDigit) || strStartsWith t "0x" then 1
  else if t = "MANUFACTURER_CODE" then 3
  else 1

/-- The token scan of find_midi_response_type_position with an explicit
running byte position. -/
def find_response_type_aux : List String → Nat → Option Nat
  | [], _ => none
  | t :: rest, position =>
    if t = "MIDI_RESPONSE_TYPE" then some position
    else find_response_type_aux rest (position + tokenByteCount t)

/-- find_midi_response_type_position (controller_config.py lines 20-65) on
the whitespace-split token list of a response template (the upstream regex
has already collapsed function calls into the FUNC_CALL token): the byte
position of the MIDI_RESPONSE_TYPE slot, if present. -/
def find_midi_response_type_position (tokens : List String) : Option Nat :=
  find_response_type_aux tokens 0

/-- The response-position resolution in ControllerConfig.__init__
(controller_config.py lines 160-170): auto-detection from the
SetPadColorResponse template, then from the SetPadNoteAndChannelResponse
template, and only when both fail the manual ResponsePosition from the
ACKBasedMIDIMessaging section, defaulting to 5. -/
def resolve_response_position (set_pad_color_response : Option (List String))
    (set_pad_note_and_channel_response : Option (List String))
    (manual : Option Nat) : Nat :=
  let p1 := match set_pad_color_response with
    | some t => find_midi_response_type_position t
    | none => none
  let p2 := match p1 with
    | some v => some v
    | none =>
      match set_pad_note_and_channel_response with
      | some t => find_midi_response_type_position t
      | none => none
  match p2 with
  | some v => v
  | none => manual.getD 5

/-- Python int() on a rational value: truncation toward zero. -/
def pyInt (q : Rat) : Int :=
  q.num.tdiv q.den

/-- The tuning parameters stored by TuningHandler (tuning.py lines 15-44),
restricted to the fields claim C10 is about. -/
structure TuningHandler where
  depth : Int
  mode : Int
  root_freq : Rat
  stretch : Rat
  skew : Rat
  mode_offset : Int
  steps : Int
  scale_degrees : List Int
deriving DecidableEq

/-- TuningHandler.update_tuning (tuning.py lines 46-83): depth and steps are
coerced by max(1, int(value)), the other parameters by int() or float(), and
_calculate_mos then sets scale_degrees = list(range(steps)) on both its
success path (tuning.py line 99) and its fallback path (line 145). -/
def update_tuning (t : TuningHandler) (depth mode root_freq stretch skew
    mode_offset steps : Rat) : TuningHandler :=
  let depth' := max 1 (pyInt depth)
  let steps' := max 1 (pyInt steps)
  { t with
    depth := depth'
    mode := pyInt mode
    root_freq := root_freq
    stretch := stretch
    skew := skew
    mode_offset := pyInt mode_offset
    steps := steps'
    scale_degrees := (List.range steps'.toNat).map (fun n => Int.ofNat n) }

lemma process_message_note_eq (st : MidiState) (s n v : Nat) (rest : List Nat)
    (hopen : st.midiOutOpen = true)
    (hs : s &&& 0xF0 = 0x90 ∨ s &&& 0xF0 = 0x80) :
    process_message st (s :: n :: v :: rest) =
      match alookup st.reverse_mapping
          ((if st.use_channel_for_lookup then s &&& 0x0F else 0), n) with
      | none => ([], st)
      | some logical_coord =>
        match alookup st.note_mapping logical_coord with
        | none => ([], st)
        | some mapped_note =>
          ([[s, mapped_note, v]],
           { st with playing_notes :=
              if s &&& 0xF0 = 0x90 ∧ 0 < v then
                dinsert mapped_note (logical_coord, s &&& 0x0F) st.playing_notes
              else dremove mapped_note st.playing_notes }) := by
  have hcond : 3 ≤ (s :: n :: v :: rest).length ∧
      (s &&& 0xF0 = 0x90 ∨ s &&& 0xF0 = 0x80) :=
    ⟨by simp [List.length_cons], hs⟩
  unfold process_message
  rw [hopen]
  simp only [Bool.true_eq_false, if_false]
  rw [if_pos hcond]
  rfl

lemma process_message_passthrough (st : MidiState) (message : List Nat)
    (hopen : st.midiOutOpen = true)
    (hs : ¬ ((match message with | [] => 0 | b :: _ => b &&& 0xF0) = 0x90 ∨
             (match message with | [] => 0 | b :: _ => b &&& 0xF0) = 0x80)) :
    process_message st message = ([message], st) := by
  unfold process_message
  rw [hopen]
  simp only [Bool.true_eq_false, if_false]
  rw [if_neg (by intro h; exact hs h.2)]

/-- Claim C1: for every dequeued Note-On or Note-Off message of length at
least 3 (with the virtual output open), the remap engine looks up the
reverse table with key (incoming channel if use_channel_for_lookup else 0,
controller note); on a missing key, or a logical coordinate absent from the
forward table, nothing is sent; otherwise exactly one message is sent whose
second byte is the forward-table note and whose status byte is unchanged;
and every message whose status nibble is not Note-On or Note-Off is sent
through unchanged. -/
theorem c1_remap_engine :
    (∀ (st : MidiState) (s n v : Nat) (rest : List Nat),
      st.midiOutOpen = true →
      (s &&& 0xF0 = 0x90 ∨ s &&& 0xF0 = 0x80) →
      ((alookup st.reverse_mapping
          ((if st.use_channel_for_lookup then s &&& 0x0F else 0), n) = none →
        (process_message st (s :: n :: v :: rest)).1 = []) ∧
       (∀ c, alookup st.reverse_mapping
          ((if st.use_channel_for_lookup then s &&& 0x0F else 0), n) = some c →
        alookup st.note_mapping c = none →
        (process_message st (s :: n :: v :: rest)).1 = []) ∧
       (∀ c m, alookup st.reverse_mapping
          ((if st.use_channel_for_lookup then s &&& 0x0F else 0), n) = some c →
        alookup st.note_mapping c = some m →
        (process_message st (s :: n :: v :: rest)).1 = [[s, m, v]]))) ∧
    (∀ (st : MidiState) (message : List Nat),
      st.midiOutOpen = true →
      ¬ ((match message with | [] => 0 | b :: _ => b &&& 0xF0) = 0x90 ∨
         (match message with | [] => 0 | b :: _ => b &&& 0xF0) = 0x80) →
      process_message st message = ([message], st)) := by
  constructor
  · intro st s n v rest hopen hs
    refine ⟨?_, ?_, ?_⟩
    · intro hr
      simp only [process_message_note_eq st s n v rest hopen hs, hr]
    · intro c hr hf
      simp only [process_message_note_eq st s n v rest hopen hs, hr, hf]
    · intro c m hr hf
      simp only [process_message_note_eq st s n v rest hopen hs, hr, hf]
  · intro st message hopen hs
    exact process_message_passthrough st message hopen hs

/-- Witness for C1 at a concrete state and messages. -/
theorem c1_remap_engine_witness :
    (process_message ⟨true, true, [((0, 35), (3, 2))], [((3, 2), 57)], false, []⟩
        [0x90, 35, 100]).1 = [[0x90, 57, 100]] ∧
    (process_message ⟨true, true, [((0, 35), (3, 2))], [((3, 2), 57)], false, []⟩
        [0x90, 40, 100]).1 = [] ∧
    process_message ⟨true, true, [((0, 35), (3, 2))], [((3, 2), 57)], false, []⟩
        [0xB0, 7, 99] = ([[0xB0, 7, 99]],
          ⟨true, true, [((0, 35), (3, 2))], [((3, 2), 57)], false, []⟩) := by
  refine ⟨?_, ?_, ?_⟩
  · exact (c1_remap_engine.1 _ 0x90 35 100 [] rfl (Or.inl (by decide))).2.2
      (3, 2) 57 (by decide) (by decide)
  · exact (c1_remap_engine.1 _ 0x90 40 100 [] rfl (Or.inl (by decide))).1 (by decide)
  · exact c1_remap_engine.2 _ [0xB0, 7, 99] rfl (by decide)

lemma stop_notes_open (st : MidiState) (F : List ((Int × Int) × Nat))
    (hopen : st.midiOutOpen = true) :
    stop_notes_with_changed_mapping st F =
      ((split_changed F st.playing_notes).1.map (fun e => [0x80 ||| e.2.2, e.1, 0]),
       { st with playing_notes := (split_changed F st.playing_notes).2 }) := by
  unfold stop_notes_with_changed_mapping
  rw [hopen]
  simp

lemma stop_notes_closed (st : MidiState) (F : List ((Int × Int) × Nat))
    (hclosed : st.midiOutOpen = false) :
    stop_notes_with_changed_mapping st F = ([], st) := by
  unfold stop_notes_with_changed_mapping
  rw [hclosed]
  rfl

lemma split_changed_cons_snd (F : List ((Int × Int) × Nat)) (n' : Nat)
    (c' : Int × Int) (ch' : Nat) (rest : List (Nat × ((Int × Int) × Nat))) :
    (split_changed F ((n', (c', ch')) :: rest)).2 =
      if alookup F c' = some n' then (n', (c', ch')) :: (split_changed F rest).2
      else (split_changed F rest).2 := by
  simp only [split_changed]
  cases hF : alookup F c' with
  | none => simp [hF]
  | some m =>
    by_cases hm : m = n'
    · subst hm
      simp
    · simp [hm, Ne.symm hm]

lemma split_changed_preserved (F : List ((Int × Int) × Nat)) :
    ∀ P : List (Nat × ((Int × Int) × Nat)),
      (∀ n c ch, (n, (c, ch)) ∈ P → alookup F c = some n) →
      split_changed F P = ([], P) := by
  intro P
  induction P with
  | nil => intro _; rfl
  | cons e rest ih =>
    intro h
    obtain ⟨n, c, ch⟩ := e
    have hn := h n c ch (List.mem_cons_self _ _)
    have ih' := ih (fun n c ch hm => h n c ch (List.mem_cons_of_mem _ hm))
    simp [split_changed, ih', hn]

lemma split_changed_mem_keeps (F : List ((Int × Int) × Nat)) :
    ∀ (P : List (Nat × ((Int × Int) × Nat))) (n : Nat) (c : Int × Int) (ch : Nat),
      (n, (c, ch)) ∈ P → alookup F c = some n →
      (n, (c, ch)) ∈ (split_changed F P).2 := by
  intro P
  induction P with
  | nil => intro n c ch h _; cases h
  | cons e rest ih =>
    intro n c ch hmem hF
    obtain ⟨n', c', ch'⟩ := e
    rw [split_changed_cons_snd]
    rcases List.mem_cons.mp hmem with heq | hmem'
    · injection heq with h1 h2
      injection h2 with h2a h2b
      subst h1; subst h2a; subst h2b
      rw [if_pos hF]
      exact List.mem_cons_self _ _
    · have htail := ih n c ch hmem' hF
      by_cases hc : alookup F c' = some n'
      · rw [if_pos hc]
        exact List.mem_cons_of_mem _ htail
      · rw [if_neg hc]
        exact htail

lemma split_changed_keeps_sound (F : List ((Int × Int) × Nat)) :
    ∀ (P : List (Nat × ((Int × Int) × Nat))) (n : Nat) (c : Int × Int) (ch : Nat),
      (n, (c, ch)) ∈ (split_changed F P).2 → alookup F c = some n := by
  intro P
  induction P with
  | nil => intro n c ch h; cases h
  | cons e rest ih =>
    intro n c ch hmem
    obtain ⟨n', c', ch'⟩ := e
    rw [split_changed_cons_snd] at hmem
    by_cases hc : alookup F c' = some n'
    · rw [if_pos hc] at hmem
      rcases List.mem_cons.mp hmem with heq | hmem'
      · injection heq with h1 h2
        injection h2 with h2a h2b
        subst h1; subst h2a
        exact hc
      · exact ih n c ch hmem'
    · rw [if_neg hc] at hmem
      exact ih n c ch hmem

/-- Claim C3: if every playing entry maps under the new forward table to its
currently sounding output note, stop_notes_with_changed_mapping sends no
Note-Off and leaves the state unchanged; installing the same table twice
sends nothing the second time; and in every call, entries whose mapping is
preserved are kept. -/
theorem c3_layout_swap_idempotence :
    (∀ (st : MidiState) (F : List ((Int × Int) × Nat)),
      st.midiOutOpen = true →
      (∀ n c ch, (n, (c, ch)) ∈ st.playing_notes → alookup F c = some n) →
      (stop_notes_with_changed_mapping st F).1 = [] ∧
        (stop_notes_with_changed_mapping st F).2 = st) ∧
    (∀ (st : MidiState) (F : List ((Int × Int) × Nat)),
      (stop_notes_with_changed_mapping
        (stop_notes_with_changed_mapping st F).2 F).1 = []) ∧
    (∀ (st : MidiState) (F : List ((Int × Int) × Nat)) (n : Nat) (c : Int × Int) (ch : Nat),
      st.midiOutOpen = true →
      (n, (c, ch)) ∈ st.playing_notes → alookup F c = some n →
      (n, (c, ch)) ∈ (stop_notes_with_changed_mapping st F).2.playing_notes) := by
  refine ⟨?_, ?_, ?_⟩
  · intro st F hopen h
    have hsplit := split_changed_preserved F st.playing_notes h
    rw [stop_notes_open st F hopen, hsplit]
    exact ⟨rfl, rfl⟩
  · intro st F
    by_cases hopen : st.midiOutOpen = true
    · have h1 := stop_notes_open st F hopen
      have h1open : (stop_notes_with_changed_mapping st F).2.midiOutOpen = true := by
        rw [h1]
        exact hopen
      have h1play : (stop_notes_with_changed_mapping st F).2.playing_notes =
          (split_changed F st.playing_notes).2 := by
        rw [h1]
      have hall : ∀ n c ch,
          (n, (c, ch)) ∈ (stop_notes_with_changed_mapping st F).2.playing_notes →
          alookup F c = some n := by
        rw [h1play]
        exact fun n c ch hm => split_changed_keeps_sound F st.playing_notes n c ch hm
      have hsplit := split_changed_preserved F
        (stop_notes_with_changed_mapping st F).2.playing_notes hall
      rw [stop_notes_open _ F h1open, hsplit]
      rfl
    · have hclosed : st.midiOutOpen = false := by
        revert hopen; cases st.midiOutOpen <;> simp
      rw [stop_notes_closed st F hclosed, stop_notes_closed st F hclosed]
  · intro st F n c ch hopen hmem hF
    rw [stop_notes_open st F hopen]
    exact split_changed_mem_keeps F st.playing_notes n c ch hmem hF

/-- Witness for C3 at a concrete state and table. -/
theorem c3_layout_swap_idempotence_witness :
    (stop_notes_with_changed_mapping
        ⟨true, true, [], [((3, 2), 57)], false, [(57, ((3, 2), 4))]⟩
        [((3, 2), 57)]).1 = [] ∧
    (stop_notes_with_changed_mapping
        ⟨true, true, [], [((3, 2), 57)], false, [(57, ((3, 2), 4))]⟩
        [((3, 2), 57)]).2 =
      ⟨true, true, [], [((3, 2), 57)], false, [(57, ((3, 2), 4))]⟩ := by
  refine c3_layout_swap_idempotence.1 _ _ rfl ?_
  intro n c ch h
  simp only [List.mem_singleton] at h
  injection h with h1 h2
  injection h2 with h2a h2b
  subst h1; subst h2a
  decide

/-- Claim C2, evaluated at the failing input: a descriptor with the single pad
(3,2), note_assign = 10 and channel_assign = 1. The never-called
ControllerConfig.build_controller_note_mapping would indeed produce
R[(1,10)] = (3,2); but the coordinator (app.py _recalculate_layout) installs
a table keyed by the bare int 35 = 3 + 2*16 from its hardcoded fallback, in
which neither the (channel_assign, note_assign) pair key (1,10) nor even the
tuple key (0,35) used by the hot-path lookup exists. -/
theorem c2_reverse_table_code_bug :
    build_controller_note_mapping [(3, 2)] (fun _ _ => some 10) (fun _ _ => 1)
        = [((1, 10), (3, 2))] ∧
    alookup (build_controller_note_mapping [(3, 2)] (fun _ _ => some 10) (fun _ _ => 1))
        (1, 10) = some (3, 2) ∧
    app_reverse_mapping [(3, 2)] = [(PyKey.int 35, (3, 2))] ∧
    alookup (app_reverse_mapping [(3, 2)]) (PyKey.pair 1 10) = none ∧
    alookup (app_reverse_mapping [(3, 2)]) (PyKey.pair 0 35) = none := by
  refine ⟨rfl, rfl, rfl, rfl, rfl⟩

/-- Claim C4, evaluated at the failing input: a Note-On on channel 0, note 35
is forwarded (as note 57) and recorded in the playing-notes registry; the
subsequent disconnect closes the ports but emits no Note-Off and leaves the
registry non-empty, while the never-called stop_all_playing_notes would have
emitted the channel-matched Note-Off and emptied the registry. -/
theorem c4_disconnect_code_bug :
    (process_message ⟨true, true, [((0, 35), (3, 2))], [((3, 2), 57)], false, []⟩
        [0x90, 35, 100]).2.playing_notes = [(57, ((3, 2), 0))] ∧
    disconnect_controller
        (process_message ⟨true, true, [((0, 35), (3, 2))], [((3, 2), 57)], false, []⟩
          [0x90, 35, 100]).2 =
      ([], ⟨true, false, [((0, 35), (3, 2))], [((3, 2), 57)], false, [(57, ((3, 2), 0))]⟩) ∧
    (disconnect_controller
        (process_message ⟨true, true, [((0, 35), (3, 2))], [((3, 2), 57)], false, []⟩
          [0x90, 35, 100]).2).2.playing_notes ≠ [] ∧
    stop_all_playing_notes
        (process_message ⟨true, true, [((0, 35), (3, 2))], [((3, 2), 57)], false, []⟩
          [0x90, 35, 100]).2 =
      ([[0x80, 57, 0]], ⟨true, true, [((0, 35), (3, 2))], [((3, 2), 57)], false, []⟩) := by
  refine ⟨rfl, rfl, by decide, rfl⟩

/-- Counterexample to claim C5: with note 57 tracked in the playing-notes
registry on channel 4 (its Note-On channel), a controller Note-Off arriving
on channel 2 for the same pad is forwarded on channel 2, not on the recorded
channel 4. -/
theorem c5_noteoff_channel_counterexample :
    alookup (MidiState.playing_notes
        ⟨true, true, [((0, 35), (3, 2))], [((3, 2), 57)], false, [(57, ((3, 2), 4))]⟩)
      57 = some ((3, 2), 4) ∧
    (process_message
        ⟨true, true, [((0, 35), (3, 2))], [((3, 2), 57)], false, [(57, ((3, 2), 4))]⟩
        [0x82, 35, 64]).1 = [[0x82, 57, 64]] ∧
    (0x82 &&& 0x0F : Nat) = 2 ∧ (2 : Nat) ≠ 4 := by
  refine ⟨rfl, rfl, rfl, by decide⟩

/-- Claim C5 as amended: Note-Offs emitted by the layout-swap cleanup
(stop_notes_with_changed_mapping) and by stop_all_playing_notes are sent on
the channel recorded in the playing-notes registry at Note-On time; a
Note-Off forwarded on the hot path keeps the incoming status byte, hence the
channel the controller sent it on, which coincides with the recorded channel
only when the controller sends Note-Off on the channel of its Note-On. -/
theorem c5_noteoff_channel_amended :
    (∀ (st : MidiState) (F : List ((Int × Int) × Nat)) (n : Nat) (c : Int × Int) (ch : Nat),
      st.midiOutOpen = true →
      (n, (c, ch)) ∈ st.playing_notes →
      (n, (c, ch)) ∈ (split_changed F st.playing_notes).1 →
      [0x80 ||| ch, n, 0] ∈ (stop_notes_with_changed_mapping st F).1) ∧
    (∀ (st : MidiState) (n : Nat) (c : Int × Int) (ch : Nat),
      st.midiOutOpen = true →
      (n, (c, ch)) ∈ st.playing_notes →
      [0x80 ||| ch, n, 0] ∈ (stop_all_playing_notes st).1) ∧
    (∀ (st : MidiState) (s n v : Nat) (rest : List Nat) (c : Int × Int) (m : Nat),
      st.midiOutOpen = true →
      s &&& 0xF0 = 0x80 →
      alookup st.reverse_mapping
        ((if st.use_channel_for_lookup then s &&& 0x0F else 0), n) = some c →
      alookup st.note_mapping c = some m →
      (process_message st (s :: n :: v :: rest)).1 = [[s, m, v]]) := by
  refine ⟨?_, ?_, ?_⟩
  · intro st F n c ch hopen _ hstop
    rw [stop_notes_open st F hopen]
    exact List.mem_map.mpr ⟨(n, (c, ch)), hstop, rfl⟩
  · intro st n c ch hopen hmem
    unfold stop_all_playing_notes
    rw [hopen]
    simp only [Bool.true_eq_false, if_false]
    exact List.mem_map.mpr ⟨(n, (c, ch)), hmem, rfl⟩
  · intro st s n v rest c m hopen hs hr hf
    simp only [process_message_note_eq st s n v rest hopen (Or.inr hs), hr, hf]

/-- Witness for the amended C5 at a concrete state. -/
theorem c5_noteoff_channel_amended_witness :
    [0x80 ||| 4, 57, 0] ∈
      (stop_notes_with_changed_mapping
        ⟨true, true, [], [((3, 2), 58)], false, [(57, ((3, 2), 4))]⟩
        [((3, 2), 58)]).1 ∧
    [0x80 ||| 4, 57, 0] ∈
      (stop_all_playing_notes
        ⟨true, true, [], [((3, 2), 58)], false, [(57, ((3, 2), 4))]⟩).1 ∧
    (process_message
        ⟨true, true, [((0, 35), (3, 2))], [((3, 2), 57)], false, [(57, ((3, 2), 4))]⟩
        [0x84, 35, 0]).1 = [[0x84, 57, 0]] := by
  refine ⟨?_, ?_, ?_⟩
  · exact c5_noteoff_channel_amended.1
      ⟨true, true, [], [((3, 2), 58)], false, [(57, ((3, 2), 4))]⟩
      [((3, 2), 58)] 57 (3, 2) 4 rfl (by decide) (by decide)
  · exact c5_noteoff_channel_amended.2.1
      ⟨true, true, [], [((3, 2), 58)], false, [(57, ((3, 2), 4))]⟩
      57 (3, 2) 4 rfl (by decide)
  · exact c5_noteoff_channel_amended.2.2
      ⟨true, true, [((0, 35), (3, 2))], [((3, 2), 57)], false, [(57, ((3, 2), 4))]⟩
      0x84 35 0 [] (3, 2) 57 rfl (by decide) (by decide) (by decide)

/-- Claim C10: after update_tuning with any numeric arguments, the stored
depth and steps are each at least 1 and the derived scale_degrees list
list(range(steps)) has exactly steps elements and is never empty. -/
theorem c10_update_tuning_invariant
    (t : TuningHandler) (depth mode root_freq stretch skew mode_offset steps : Rat) :
    1 ≤ (update_tuning t depth mode root_freq stretch skew mode_offset steps).depth ∧
    1 ≤ (update_tuning t depth mode root_freq stretch skew mode_offset steps).steps ∧
    (update_tuning t depth mode root_freq stretch skew mode_offset steps).scale_degrees.length
      = (update_tuning t depth mode root_freq stretch skew mode_offset steps).steps.toNat ∧
    (update_tuning t depth mode root_freq stretch skew mode_offset steps).scale_degrees ≠ [] := by
  have hsd : (update_tuning t depth mode root_freq stretch skew mode_offset steps).scale_degrees
      = (List.range (max 1 (pyInt steps)).toNat).map (fun n => Int.ofNat n) := rfl
  have hst : (update_tuning t depth mode root_freq stretch skew mode_offset steps).steps
      = max 1 (pyInt steps) := rfl
  have h1 : (1 : Int) ≤ max 1 (pyInt steps) := le_max_left _ _
  have h2 : 1 ≤ (max 1 (pyInt steps)).toNat := by omega
  refine ⟨le_max_left _ _, le_max_left _ _, ?_, ?_⟩
  · rw [hsd, hst, List.length_map, List.length_range]
  · rw [hsd]
    intro hnil
    have hlen := congrArg List.length hnil
    rw [List.length_map, List.length_range] at hlen
    simp only [List.length_nil] at hlen
    omega

lemma parseMidiAux_nil : ∀ f : Nat, parseMidiAux f [] = [] := by
  intro f
  cases f <;> rfl

lemma sysexTake_length : ∀ l : List Nat, (sysexTake l).2.length ≤ l.length := by
  intro l
  induction l with
  | nil => simp [sysexTake]
  | cons b rest ih =>
    simp only [sysexTake]
    by_cases hb : b = 0xF7
    · rw [if_pos hb]
      simp
    · rw [if_neg hb]
      simp only [List.length_cons]
      omega

lemma sysexTake_spec : ∀ (body rest : List Nat), (∀ b ∈ body, b ≠ 0xF7) →
    sysexTake (body ++ 0xF7 :: rest) = (body ++ [0xF7], rest) := by
  intro body
  induction body with
  | nil =>
    intro rest _
    simp [sysexTake]
  | cons b bs ih =>
    intro rest h
    have hb : b ≠ 0xF7 := h b (List.mem_cons_self _ _)
    have ih' := ih rest (fun x hx => h x (List.mem_cons_of_mem _ hx))
    have hstep : sysexTake (b :: (bs ++ 0xF7 :: rest)) =
        (b :: (sysexTake (bs ++ 0xF7 :: rest)).1, (sysexTake (bs ++ 0xF7 :: rest)).2) := by
      simp only [sysexTake]
      rw [if_neg hb]
    rw [List.cons_append, hstep, ih']
    simp

lemma parseMidiAux_congr : ∀ (f g : Nat) (data : List Nat),
    data.length ≤ f → data.length ≤ g → parseMidiAux f data = parseMidiAux g data := by
  intro f
  induction f with
  | zero =>
    intro g data hf _
    have hd : data = [] := List.eq_nil_of_length_eq_zero (Nat.le_zero.mp hf)
    subst hd
    rw [parseMidiAux_nil, parseMidiAux_nil]
  | succ f ih =>
    intro g data hf hg
    cases data with
    | nil => rw [parseMidiAux_nil, parseMidiAux_nil]
    | cons s rest =>
      cases g with
      | zero => simp at hg
      | succ g =>
        have hrest : rest.length ≤ f := by
          simp only [List.length_cons] at hf
          omega
        have hrest' : rest.length ≤ g := by
          simp only [List.length_cons] at hg
          omega
        simp only [parseMidiAux]
        by_cases h1 : s = 0xF0
        · rw [if_pos h1, if_pos h1]
          have hsl := sysexTake_length rest
          exact congrArg _ (ih g _ (le_trans hsl hrest) (le_trans hsl hrest'))
        · rw [if_neg h1, if_neg h1]
          by_cases h2 : 0x80 ≤ s ∧ s ≤ 0xEF
          · rw [if_pos h2, if_pos h2]
            have hdrop : ((s :: rest).drop
                (if s &&& 0xF0 = 0xC0 ∨ s &&& 0xF0 = 0xD0 then 2 else 3)).length ≤ rest.length := by
              rw [List.length_drop]
              simp only [List.length_cons]
              split_ifs <;> omega
            exact congrArg _ (ih g _ (le_trans hdrop hrest) (le_trans hdrop hrest'))
          · rw [if_neg h2, if_neg h2]
            by_cases h3 : 0xF1 ≤ s ∧ s ≤ 0xF6
            · rw [if_pos h3, if_pos h3]
              have hdrop : ((s :: rest).drop
                  (if s = 0xF1 ∨ s = 0xF3 then 2 else if s = 0xF2 then 3 else 1)).length
                    ≤ rest.length := by
                rw [List.length_drop]
                simp only [List.length_cons]
                split_ifs <;> omega
              exact congrArg _ (ih g _ (le_trans hdrop hrest) (le_trans hdrop hrest'))
            · rw [if_neg h3, if_neg h3]
              by_cases h4 : 0xF8 ≤ s
              · rw [if_pos h4, if_pos h4]
                exact congrArg _ (ih g rest hrest hrest')
              · rw [if_neg h4, if_neg h4]
                exact ih g rest hrest hrest'

lemma parse_midi_messages_cons (m rest : List Nat) (h : validMidiMessage m = true) :
    parse_midi_messages (m ++ rest) = m :: parse_midi_messages rest := by
  cases m with
  | nil => simp [validMidiMessage] at h
  | cons s tail =>
    simp only [validMidiMessage] at h
    unfold parse_midi_messages
    rw [List.cons_append, List.length_cons]
    simp only [parseMidiAux]
    by_cases hF0 : s = 0xF0
    · rw [if_pos hF0] at h ⊢
      subst hF0
      rcases List.eq_nil_or_concat tail with rfl | ⟨L, b, htail⟩
      · simp at h
      · rw [List.concat_eq_append] at htail
        subst htail
        simp only [List.dropLast_concat, List.getLastD_concat, Bool.and_eq_true,
          beq_iff_eq, List.all_eq_true, decide_eq_true_eq, Bool.not_eq_true'] at h
        obtain ⟨⟨_, hb⟩, hL⟩ := h
        subst hb
        have hbody : ∀ x ∈ L, x ≠ 0xF7 := by
          intro x hx
          have := hL x hx
          omega
        rw [List.append_assoc, List.singleton_append, sysexTake_spec L rest hbody]
        exact congrArg _ (parseMidiAux_congr _ _ rest
          (by simp only [List.length_append, List.length_cons]; omega) le_rfl)
    · rw [if_neg hF0] at h ⊢
      by_cases hChan : 0x80 ≤ s ∧ s ≤ 0xEF
      · rw [if_pos hChan] at h ⊢
        by_cases hc : s &&& 0xF0 = 0xC0 ∨ s &&& 0xF0 = 0xD0
        · rw [if_pos hc] at h ⊢
          simp only [Bool.and_eq_true, beq_iff_eq] at h
          obtain ⟨hlen, _⟩ := h
          rw [← List.cons_append]
          have hlen2 : (s :: tail).length = 2 := by simp [hlen]
          rw [List.take_left' hlen2, List.drop_left' hlen2]
          exact congrArg _ (parseMidiAux_congr _ _ rest
            (by simp only [List.length_append]; omega) le_rfl)
        · rw [if_neg hc] at h ⊢
          simp only [Bool.and_eq_true, beq_iff_eq] at h
          obtain ⟨hlen, _⟩ := h
          rw [← List.cons_append]
          have hlen2 : (s :: tail).length = 3 := by simp [hlen]
          rw [List.take_left' hlen2, List.drop_left' hlen2]
          exact congrArg _ (parseMidiAux_congr _ _ rest
            (by simp only [List.length_append]; omega) le_rfl)
      · rw [if_neg hChan] at h ⊢
        by_cases hF13 : s = 0xF1 ∨ s = 0xF3
        · rw [if_pos hF13] at h
          have hs3 : 0xF1 ≤ s ∧ s ≤ 0xF6 := by rcases hF13 with rfl | rfl <;> decide
          rw [if_pos hs3, if_pos hF13]
          simp only [Bool.and_eq_true, beq_iff_eq] at h
          obtain ⟨hlen, _⟩ := h
          rw [← List.cons_append]
          have hlen2 : (s :: tail).length = 2 := by simp [hlen]
          rw [List.take_left' hlen2, List.drop_left' hlen2]
          exact congrArg _ (parseMidiAux_congr _ _ rest
            (by simp only [List.length_append]; omega) le_rfl)
        · rw [if_neg hF13] at h ⊢
          by_cases hF2 : s = 0xF2
          · rw [if_pos hF2] at h
            have hs3 : 0xF1 ≤ s ∧ s ≤ 0xF6 := by subst hF2; decide
            rw [if_pos hs3, if_pos hF2]
            simp only [Bool.and_eq_true, beq_iff_eq] at h
            obtain ⟨hlen, _⟩ := h
            rw [← List.cons_append]
            have hlen2 : (s :: tail).length = 3 := by simp [hlen]
            rw [List.take_left' hlen2, List.drop_left' hlen2]
            exact congrArg _ (parseMidiAux_congr _ _ rest
              (by simp only [List.length_append]; omega) le_rfl)
          · rw [if_neg hF2] at h ⊢
            by_cases hF456 : s = 0xF4 ∨ s = 0xF5 ∨ s = 0xF6
            · rw [if_pos hF456] at h
              have htail : tail = [] := by
                cases tail with
                | nil => rfl
                | cons x xs => simp at h
              subst htail
              have hs3 : 0xF1 ≤ s ∧ s ≤ 0xF6 := by
                rcases hF456 with rfl | rfl | rfl <;> decide
              rw [if_pos hs3, List.nil_append]
              rfl
            · rw [if_neg hF456] at h
              by_cases hRT : 0xF8 ≤ s ∧ s ≤ 0xFF
              · rw [if_pos hRT] at h
                have htail : tail = [] := by
                  cases tail with
                  | nil => rfl
                  | cons x xs => simp at h
                subst htail
                have hs3 : ¬ (0xF1 ≤ s ∧ s ≤ 0xF6) := by omega
                rw [if_neg hs3, if_pos hRT.1, List.nil_append]
              · rw [if_neg hRT] at h
                simp at h

/-- Claim C6: for every byte stream that is a concatenation of complete MIDI
messages (SysEx 0xF0..0xF7, channel messages of length 2 for 0xC0/0xD0-type
statuses and 3 otherwise, system-common messages of length 2 for 0xF1/0xF3,
3 for 0xF2, 1 for 0xF4-0xF6, and one-byte real-time messages 0xF8-0xFF),
_parse_midi_messages returns exactly that list of messages, so re-emitting
the parsed messages in order is byte-identical to the input. -/
theorem c6_parser_round_trip (msgs : List (List Nat))
    (h : ∀ m ∈ msgs, validMidiMessage m = true) :
    parse_midi_messages msgs.flatten = msgs ∧
      (parse_midi_messages msgs.flatten).flatten = msgs.flatten := by
  have h1 : parse_midi_messages msgs.flatten = msgs := by
    induction msgs with
    | nil => rfl
    | cons m rest ih =>
      have hjoin : (m :: rest).flatten = m ++ rest.flatten := rfl
      rw [hjoin, parse_midi_messages_cons m rest.flatten (h m (List.mem_cons_self _ _)),
        ih (fun x hx => h x (List.mem_cons_of_mem _ hx))]
  exact ⟨h1, by rw [h1]⟩

/-- Witness for C6 on a concrete stream containing a Note-On, a Program
Change, a SysEx, a real-time byte and a Song Position message. -/
theorem c6_parser_round_trip_witness :
    parse_midi_messages
        ([[0x90, 60, 100], [0xC0, 5], [0xF0, 0x00, 0x21, 0x50, 6, 0xF7], [0xF8],
          [0xF2, 1, 2]].flatten) =
      [[0x90, 60, 100], [0xC0, 5], [0xF0, 0x00, 0x21, 0x50, 6, 0xF7], [0xF8],
        [0xF2, 1, 2]] :=
  (c6_parser_round_trip _ (by decide)).1

lemma send_single_aux_busy (cfg : ACKMessagingConfig) (resp : Nat → Option (List Nat))
    (msg r : List Nat) (a : String) (d : Nat)
    (hresp : ∀ attempt, resp attempt = some r)
    (hpos : cfg.response_position < r.length)
    (haction : getActionForValue cfg (r.getD cfg.response_position 0) = some a)
    (hnext : ¬ a = "next") (habort : ¬ a = "abort")
    (hdelay : strStartsWith a "delay(" = true) (hparse : parseDelayMs a = some d) :
    ∀ (fuel attempt : Nat) (sends : List (List Nat)) (sleeps : List Nat),
      send_single_aux cfg resp msg fuel attempt sends sleeps =
        ⟨false, "busy", sends ++ List.replicate fuel msg, sleeps ++ List.replicate fuel d⟩ := by
  intro fuel
  induction fuel with
  | zero =>
    intro attempt sends sleeps
    simp [send_single_aux]
  | succ fuel ih =>
    intro attempt sends sleeps
    simp only [send_single_aux, hresp attempt]
    rw [if_pos hpos]
    simp only [haction]
    rw [if_neg hnext, if_neg habort, if_pos hdelay]
    simp only [hparse]
    rw [ih (attempt + 1) (sends ++ [msg]) (sleeps ++ [d])]
    simp [List.replicate_succ, List.append_assoc]

/-- Counterexample to claim C8: with a BUSY response at every attempt, the
retry loop exhausts after 10 transmissions of the message (one initial send
plus 9 retries) and fails with outcome busy — counted and logged as busy,
not treated as a timeout. -/
theorem c8_busy_retry_counterexample :
    send_single_with_ack ⟨2000, 5, [⟨"ACK", 1, "next"⟩, ⟨"BUSY", 2, "delay(50)"⟩]⟩
        (fun _ => some [0xF0, 0x00, 0x21, 0x50, 0x00, 0x02, 0xF7]) [0xF0, 0, 0xF7]
      = ⟨false, "busy", List.replicate 10 [0xF0, 0, 0xF7], List.replicate 10 50⟩ ∧
    (send_single_with_ack ⟨2000, 5, [⟨"ACK", 1, "next"⟩, ⟨"BUSY", 2, "delay(50)"⟩]⟩
        (fun _ => some [0xF0, 0x00, 0x21, 0x50, 0x00, 0x02, 0xF7]) [0xF0, 0, 0xF7]).outcome
      ≠ "timeout" ∧
    (send_single_with_ack ⟨2000, 5, [⟨"ACK", 1, "next"⟩, ⟨"BUSY", 2, "delay(50)"⟩]⟩
        (fun _ => some [0xF0, 0x00, 0x21, 0x50, 0x00, 0x02, 0xF7]) [0xF0, 0, 0xF7]).sends.length
      = 10 := by
  refine ⟨by decide, by decide, by decide⟩

/-- Claim C8 as amended: when the response selects a delay(ms) action at
every attempt, the driver sleeps ms and re-sends the same SysEx message
while fewer than 10 attempts have been made; the message is transmitted
exactly 10 times (9 re-sends) with 10 sleeps of ms, and on exhaustion the
send fails with outcome busy, which is propagated like any other failure
but is distinct from the timeout outcome. -/
theorem c8_busy_retry_amended (cfg : ACKMessagingConfig)
    (resp : Nat → Option (List Nat)) (msg r : List Nat) (a : String) (d : Nat)
    (hresp : ∀ attempt, resp attempt = some r)
    (hpos : cfg.response_position < r.length)
    (haction : getActionForValue cfg (r.getD cfg.response_position 0) = some a)
    (hnext : ¬ a = "next") (habort : ¬ a = "abort")
    (hdelay : strStartsWith a "delay(" = true) (hparse : parseDelayMs a = some d) :
    send_single_with_ack cfg resp msg =
      ⟨false, "busy", List.replicate 10 msg, List.replicate 10 d⟩ := by
  unfold send_single_with_ack
  rw [send_single_aux_busy cfg resp msg r a d hresp hpos haction hnext habort hdelay hparse
    10 0 [] []]
  simp

/-- Witness for the amended C8 at a concrete configuration and responder. -/
theorem c8_busy_retry_amended_witness :
    send_single_with_ack ⟨1000, 5, [⟨"BUSY", 2, "delay(25)"⟩]⟩
        (fun _ => some [0xF0, 0x00, 0x21, 0x50, 0x00, 0x02, 0xF7]) [0xF0, 9, 0xF7]
      = ⟨false, "busy", List.replicate 10 [0xF0, 9, 0xF7], List.replicate 10 25⟩ :=
  c8_busy_retry_amended ⟨1000, 5, [⟨"BUSY", 2, "delay(25)"⟩]⟩
    (fun _ => some [0xF0, 0x00, 0x21, 0x50, 0x00, 0x02, 0xF7]) [0xF0, 9, 0xF7]
    [0xF0, 0x00, 0x21, 0x50, 0x00, 0x02, 0xF7] "delay(25)" 25
    (fun _ => rfl) (by decide) (by decide) (by decide) (by decide) (by decide) (by decide)

/-- Counterexample to claim C7: a send tagged with generation 3 while the
counter reads 5 returns before sending anything, but send_with_ack returns
False — the same failure value that a genuine breakage produces (last
conjunct: a pure-timeout run also yields ok = false) — and its caller
send_raw_bytes reports the user-visible fallback warning; likewise for a
mid-stream cancellation (counter advancing from 3 to 5 after the first
message is acknowledged), where the middle conjuncts show the first message
sent once, False returned, and the warning logged. -/
theorem c7_cancellation_counterexample :
    send_with_ack (fun _ => 5) (some 3) ⟨2000, 5, [⟨"ACK", 1, "next"⟩]⟩
        (fun _ _ => some [0xF0, 0x00, 0x21, 0x50, 0x00, 0x01, 0xF7]) [[0xF0, 1, 0xF7]]
      = ⟨false, [], 1⟩ ∧
    send_raw_bytes (fun _ => 5) (some 3) (some ⟨2000, 5, [⟨"ACK", 1, "next"⟩]⟩)
        (fun _ _ => some [0xF0, 0x00, 0x21, 0x50, 0x00, 0x01, 0xF7]) [[0xF0, 1, 0xF7]]
      = ⟨[], true⟩ ∧
    send_with_ack (fun i => if i = 0 then 3 else 5) (some 3) ⟨2000, 5, [⟨"ACK", 1, "next"⟩]⟩
        (fun _ _ => some [0xF0, 0x00, 0x21, 0x50, 0x00, 0x01, 0xF7])
        [[0xF0, 1, 0xF7], [0xF0, 2, 0xF7]]
      = ⟨false, [[0xF0, 1, 0xF7]], 2⟩ ∧
    send_raw_bytes (fun i => if i = 0 then 3 else 5) (some 3)
        (some ⟨2000, 5, [⟨"ACK", 1, "next"⟩]⟩)
        (fun _ _ => some [0xF0, 0x00, 0x21, 0x50, 0x00, 0x01, 0xF7])
        [[0xF0, 1, 0xF7], [0xF0, 2, 0xF7]]
      = ⟨[[0xF0, 1, 0xF7]], true⟩ ∧
    (send_with_ack (fun _ => 0) (some 0) ⟨2000, 5, [⟨"ACK", 1, "next"⟩]⟩
        (fun _ _ => none) [[0xF0, 1, 0xF7]]).ok = false := by
  refine ⟨by decide, by decide, by decide, by decide, by decide⟩

lemma send_delay_based_take (obs : Nat → Nat) (g : Nat) :
    ∀ (msgs : List (List Nat)) (i : Nat) (sent : List (List Nat)) (k : Nat),
      (∀ j, j < k → obs (i + j) = g) → obs (i + k) ≠ g →
      send_delay_based obs (some g) msgs i sent = sent ++ msgs.take k := by
  intro msgs
  induction msgs with
  | nil =>
    intro i sent k _ _
    simp [send_delay_based]
  | cons msg rest ih =>
    intro i sent k hpre hk
    cases k with
    | zero =>
      have hne : obs i ≠ g := by simpa using hk
      have hc : cancelledAt (obs i) (some g) = true := by
        simp [cancelledAt, bne_iff_ne, hne]
      simp [send_delay_based, hc]
    | succ k =>
      have hi : obs i = g := by simpa using hpre 0 (Nat.succ_pos k)
      have hc : cancelledAt (obs i) (some g) = false := by
        simp [cancelledAt, hi]
      simp only [send_delay_based, hc, Bool.false_eq_true, if_false]
      rw [ih (i + 1) (sent ++ [msg]) k
        (fun j hj => by
          have := hpre (j + 1) (by omega)
          rwa [show i + (j + 1) = i + 1 + j by omega] at this)
        (by
          rw [show i + 1 + k = i + (k + 1) by omega]
          exact hk)]
      simp [List.take_succ_cons, List.append_assoc]

lemma send_delay_based_cancelled (obs : Nat → Nat) (generation : Option Nat) :
    ∀ (msgs : List (List Nat)) (i : Nat) (sent : List (List Nat)),
      msgs ≠ [] → cancelledAt (obs i) generation = true →
      send_delay_based obs generation msgs i sent = sent := by
  intro msgs i sent hne hc
  cases msgs with
  | nil => exact absurd rfl hne
  | cons m ms => simp [send_delay_based, hc]

lemma send_with_ack_aux_clean_run (obs : Nat → Nat) (g : Nat)
    (cfg : ACKMessagingConfig) (resp : Nat → Nat → Option (List Nat)) :
    ∀ (pre tailMsgs : List (List Nat)) (i : Nat) (sent : List (List Nat)),
      (∀ j, j < pre.length → obs (i + j) = g) →
      (∀ idx (h : idx < pre.length),
        send_single_with_ack cfg (resp (i + idx)) (pre.get ⟨idx, h⟩)
          = ⟨true, "ack", [pre.get ⟨idx, h⟩], []⟩) →
      send_with_ack_aux obs (some g) cfg resp (pre ++ tailMsgs) i sent
        = send_with_ack_aux obs (some g) cfg resp tailMsgs (i + pre.length) (sent ++ pre) := by
  intro pre
  induction pre with
  | nil =>
    intro tailMsgs i sent _ _
    simp
  | cons p ps ih =>
    intro tailMsgs i sent hobs hclean
    have hi : obs i = g := by simpa using hobs 0 (by simp)
    have hc : cancelledAt (obs i) (some g) = false := by
      simp [cancelledAt, hi]
    have hobs' : ∀ j, j < ps.length → obs (i + 1 + j) = g := by
      intro j hj
      have := hobs (j + 1) (by simp only [List.length_cons]; omega)
      rwa [show i + (j + 1) = i + 1 + j by omega] at this
    have hclean' : ∀ idx (h : idx < ps.length),
        send_single_with_ack cfg (resp (i + 1 + idx)) (ps.get ⟨idx, h⟩)
          = ⟨true, "ack", [ps.get ⟨idx, h⟩], []⟩ := by
      intro idx h
      have := hclean (idx + 1) (by simp only [List.length_cons]; omega)
      rwa [show i + (idx + 1) = i + 1 + idx by omega] at this
    have harith : i + 1 + ps.length = i + (p :: ps).length := by
      simp only [List.length_cons]
      omega
    rw [List.cons_append]
    simp only [send_with_ack_aux, hc, Bool.false_eq_true, if_false]
    by_cases hp : p ≠ [] ∧ p.headD 0 = 0xF0
    · rw [if_pos hp]
      have hsingle : send_single_with_ack cfg (resp i) p = ⟨true, "ack", [p], []⟩ := by
        have := hclean 0 (by simp only [List.length_cons]; omega)
        simpa using this
      simp only [hsingle]
      rw [ih tailMsgs (i + 1) (sent ++ [p]) hobs' hclean', harith, ← List.append_cons]
      simp
    · rw [if_neg hp]
      rw [ih tailMsgs (i + 1) (sent ++ [p]) hobs' hclean', harith, ← List.append_cons]

/-- Claim C7 as amended: when the generation counter — monotonically
advanced and never returning below the tag — is observed to have advanced
past the tag at the check before message k, both senders return before
sending message k. The delay-based loop returns silently, having sent
exactly the first k messages. send_with_ack, when the preceding SysEx
exchanges each succeeded in one transmission, has also sent exactly the
first k messages but returns False — the same failure value as a broken
exchange — upon which send_raw_bytes logs the user-visible fallback
warning and its fallback pass, re-reading the advanced counter, sends
nothing. -/
theorem c7_cancellation_amended :
    (∀ (obs : Nat → Nat) (g : Nat) (msgs : List (List Nat)) (k : Nat),
      (∀ j, j < k → obs j = g) → obs k ≠ g →
      send_delay_based obs (some g) msgs 0 [] = msgs.take k) ∧
    (∀ (obs : Nat → Nat) (g : Nat) (cfg : ACKMessagingConfig)
        (resp : Nat → Nat → Option (List Nat)) (pre : List (List Nat)) (msg : List Nat)
        (rest : List (List Nat)),
      (∀ i j, i ≤ j → obs i ≤ obs j) →
      (∀ j, g ≤ obs j) →
      (∀ j, j < pre.length → obs j = g) →
      obs pre.length ≠ g →
      (∀ idx (h : idx < pre.length),
        send_single_with_ack cfg (resp idx) (pre.get ⟨idx, h⟩)
          = ⟨true, "ack", [pre.get ⟨idx, h⟩], []⟩) →
      send_with_ack obs (some g) cfg resp (pre ++ msg :: rest)
          = ⟨false, pre, pre.length + 1⟩ ∧
      send_raw_bytes obs (some g) (some cfg) resp (pre ++ msg :: rest)
          = ⟨pre, true⟩) := by
  constructor
  · intro obs g msgs k hpre hk
    have := send_delay_based_take obs g msgs 0 [] k
      (fun j hj => by simpa using hpre j hj) (by simpa using hk)
    simpa using this
  · intro obs g cfg resp pre msg rest hmono hge hpre hk hclean
    have hgt : g < obs pre.length := lt_of_le_of_ne (hge _) (Ne.symm hk)
    have hpersist : ∀ j, pre.length ≤ j → obs j ≠ g := by
      intro j hj heq
      have := hmono pre.length j hj
      omega
    have hck : cancelledAt (obs pre.length) (some g) = true := by
      simp [cancelledAt, bne_iff_ne, hk]
    have hack : send_with_ack obs (some g) cfg resp (pre ++ msg :: rest)
        = ⟨false, pre, pre.length + 1⟩ := by
      unfold send_with_ack
      rw [send_with_ack_aux_clean_run obs g cfg resp pre (msg :: rest) 0 []
        (fun j hj => by simpa using hpre j hj)
        (fun idx h => by simpa using hclean idx h)]
      simp only [send_with_ack_aux, Nat.zero_add, List.nil_append, hck, if_true]
    refine ⟨hack, ?_⟩
    have hfall : send_delay_based obs (some g) (pre ++ msg :: rest) (pre.length + 1) []
        = [] := by
      apply send_delay_based_cancelled
      · simp
      · simp [cancelledAt, bne_iff_ne, hpersist (pre.length + 1) (by omega)]
    simp [send_raw_bytes, hack, hfall]

/-- Witness for the amended C7: a constant-mismatch observation for the
delay path, and a counter advancing from 3 to 5 after the first message is
acknowledged for the ACK path. -/
theorem c7_cancellation_amended_witness :
    send_delay_based (fun _ => 5) (some 3) [[0xB0, 7, 99], [0xB0, 7, 100]] 0 [] = [] ∧
    send_with_ack (fun i => if i = 0 then 3 else 5) (some 3)
        ⟨2000, 5, [⟨"ACK", 1, "next"⟩]⟩
        (fun _ _ => some [0xF0, 0x00, 0x21, 0x50, 0x00, 0x01, 0xF7])
        [[0xF0, 1, 0xF7], [0xF0, 2, 0xF7]]
      = ⟨false, [[0xF0, 1, 0xF7]], 2⟩ ∧
    send_raw_bytes (fun i => if i = 0 then 3 else 5) (some 3)
        (some ⟨2000, 5, [⟨"ACK", 1, "next"⟩]⟩)
        (fun _ _ => some [0xF0, 0x00, 0x21, 0x50, 0x00, 0x01, 0xF7])
        [[0xF0, 1, 0xF7], [0xF0, 2, 0xF7]]
      = ⟨[[0xF0, 1, 0xF7]], true⟩ := by
  have hmono : ∀ i j : Nat, i ≤ j →
      (fun i => if i = 0 then 3 else 5 : Nat → Nat) i
        ≤ (fun i => if i = 0 then 3 else 5 : Nat → Nat) j := by
    intro i j hij
    by_cases hi : i = 0
    · subst hi
      by_cases hj : j = 0
      · subst hj
        simp
      · simp [hj]
    · have hj : j ≠ 0 := by omega
      simp [hi, hj]
  have hge : ∀ j : Nat, 3 ≤ (fun i => if i = 0 then 3 else 5 : Nat → Nat) j := by
    intro j
    by_cases hj : j = 0 <;> simp [hj]
  have hpre : ∀ j : Nat, j < ([[0xF0, 1, 0xF7]] : List (List Nat)).length →
      (fun i => if i = 0 then 3 else 5 : Nat → Nat) j = 3 := by
    intro j hj
    have : j = 0 := by simpa using hj
    subst this
    rfl
  have hclean : ∀ idx (h : idx < ([[0xF0, 1, 0xF7]] : List (List Nat)).length),
      send_single_with_ack ⟨2000, 5, [⟨"ACK", 1, "next"⟩]⟩
          ((fun _ _ => some [0xF0, 0x00, 0x21, 0x50, 0x00, 0x01, 0xF7]) idx)
          (([[0xF0, 1, 0xF7]] : List (List Nat)).get ⟨idx, h⟩)
        = ⟨true, "ack", [([[0xF0, 1, 0xF7]] : List (List Nat)).get ⟨idx, h⟩], []⟩ := by
    intro idx h
    have hidx : idx = 0 := by simpa using h
    subst hidx
    show send_single_with_ack ⟨2000, 5, [⟨"ACK", 1, "next"⟩]⟩
        (fun _ => some [0xF0, 0x00, 0x21, 0x50, 0x00, 0x01, 0xF7]) [0xF0, 1, 0xF7]
      = ⟨true, "ack", [[0xF0, 1, 0xF7]], []⟩
    decide
  have hmain := c7_cancellation_amended.2 (fun i => if i = 0 then 3 else 5) 3
    ⟨2000, 5, [⟨"ACK", 1, "next"⟩]⟩
    (fun _ _ => some [0xF0, 0x00, 0x21, 0x50, 0x00, 0x01, 0xF7])
    [[0xF0, 1, 0xF7]] [0xF0, 2, 0xF7] []
    hmono hge hpre (by decide) hclean
  have hdel := c7_cancellation_amended.1 (fun _ => 5) 3 [[0xB0, 7, 99], [0xB0, 7, 100]] 0
    (fun j hj => absurd hj (by omega)) (by decide)
  exact ⟨by simpa using hdel, hmain.1, hmain.2⟩

lemma find_response_type_aux_shift :
    ∀ (toks : List String) (d : Nat),
      find_response_type_aux toks d = (find_response_type_aux toks 0).map (· + d) := by
  intro toks
  induction toks with
  | nil => intro d; rfl
  | cons t rest ih =>
    intro d
    by_cases ht : t = "MIDI_RESPONSE_TYPE"
    · simp [find_response_type_aux, ht]
    · simp only [find_response_type_aux, if_neg ht]
      rw [ih (d + tokenByteCount t), ih (0 + tokenByteCount t)]
      cases h' : find_response_type_aux rest 0 with
      | none => rfl
      | some v =>
        simp only [Option.map_some', Option.some.injEq]
        omega

/-- Counterexample to claim C9: for a response template whose
MIDI_RESPONSE_TYPE slot is auto-detected at byte position 6, a manual
ResponsePosition of 2 in the ack_config is ignored — the template-derived
position wins, so the manual override does not take precedence. -/
theorem c9_position_counterexample :
    resolve_response_position
        (some ["240", "MANUFACTURER_CODE", "0", "0", "MIDI_RESPONSE_TYPE", "247"])
        none (some 2) = 6 ∧
    resolve_response_position
        (some ["240", "MANUFACTURER_CODE", "0", "0", "MIDI_RESPONSE_TYPE", "247"])
        none (some 2) ≠ 2 := by
  refine ⟨rfl, by decide⟩

/-- Claim C9 as amended: auto-detection from a response template takes
precedence over the manual ResponsePosition; the manual value applies only
when no template yields a position; the default 5 applies when neither is
available; and template scanning counts the 3-byte manufacturer identifier
as contributing 3 byte positions. -/
theorem c9_position_amended :
    (∀ (toks : List String) (other : Option (List String)) (manual : Option Nat) (p : Nat),
      find_midi_response_type_position toks = some p →
      resolve_response_position (some toks) other manual = p) ∧
    (∀ (toks : List String) (manual : Nat),
      find_midi_response_type_position toks = none →
      resolve_response_position (some toks) none (some manual) = manual) ∧
    resolve_response_position none none none = 5 ∧
    tokenByteCount "MANUFACTURER_CODE" = 3 ∧
    (∀ rest : List String,
      find_midi_response_type_position ("MANUFACTURER_CODE" :: rest) =
        (find_midi_response_type_position rest).map (· + 3)) := by
  refine ⟨?_, ?_, rfl, by decide, ?_⟩
  · intro toks other manual p hfind
    simp [resolve_response_position, hfind]
  · intro toks manual hfind
    simp [resolve_response_position, hfind]
  · intro rest
    simp only [find_midi_response_type_position, find_response_type_aux,
      if_neg (by decide : ¬ ("MANUFACTURER_CODE" : String) = "MIDI_RESPONSE_TYPE")]
    rw [show 0 + tokenByteCount "MANUFACTURER_CODE" = 3 from rfl]
    exact find_response_type_aux_shift rest 3

/-- Witness for the amended C9 at concrete templates. -/
theorem c9_position_amended_witness :
    resolve_response_position
        (some ["240", "MANUFACTURER_CODE", "MIDI_RESPONSE_TYPE", "247"]) none (some 9) = 4 ∧
    resolve_response_position (some ["UNKNOWN_TOKEN"]) none (some 7) = 7 :=
  ⟨c9_position_amended.1 ["240", "MANUFACTURER_CODE", "MIDI_RESPONSE_TYPE", "247"]
      none (some 9) 4 rfl,
   c9_position_amended.2.1 ["UNKNOWN_TOKEN"] 7 rfl⟩
